import Mathlib

/-!
Shallow embedding of `src/theme-toggle.js` (multi-brand theme switcher).

The script maintains the `<html>` element's class attribute, keeping one fixed
base class (`Headless-base`) plus one brand-mode class `brand + "-" + mode`,
mirrors resolved CSS custom-property values into diagnostic elements, and
persists the selection in `localStorage` on a best-effort basis.

Modelling decisions:
- Strings are Lean `String`s; JavaScript's `className.split(' ')` and
  `classList.join(' ')` are modelled character-exactly via `List.splitOn` /
  `List.intercalate` on `List Char` (JS `"".split(' ')` is `[""]`, and
  `"a  b".split(' ')` is `["a", "", "b"]`, which is exactly `List.splitOn`).
- The DOM is a record `ThemeDoc`: the root element's `className`, the
  diagnostic elements reachable by id (`elementText`, `none` when
  `getElementById` returns `null`), the swatch elements' `data-var`
  attributes and text contents, and the computed style as a function of the
  current `className` (so a style read observes the class attribute at the
  moment of the read).
- `localStorage` is a `Store`: its key/value data plus failure oracles
  (`setFails`/`getFails`) describing which operations throw, as when storage
  is disabled or its quota exceeded. Fallible primitives return `Except`.
- The event-handler functions are instrumented to also return a trace of
  `Event`s (class-attribute writes, computed-style reads, storage writes) so
  that the sequencing of a change event is a provable statement; the
  un-traced functions are the first projections.
-/

namespace ThemeToggle

/-- JS `s.split(' ')`: split on every single space character, keeping empty
pieces (`"".split(' ') = [""]`). -/
def jsSplitSpace (s : String) : List String :=
  (s.toList.splitOn ' ').map (fun cs => String.mk cs)

/-- JS `parts.join(' ')`. -/
def joinSpace (parts : List String) : String :=
  String.mk (List.intercalate [' '] (parts.map String.toList))

/-- `const STORAGE_KEY_BRAND = 'ds-theme-brand'`. -/
def STORAGE_KEY_BRAND : String := "ds-theme-brand"

/-- `const STORAGE_KEY_MODE = 'ds-theme-mode'`. -/
def STORAGE_KEY_MODE : String := "ds-theme-mode"

/-- The fixed base class literal `'Headless-base'` used in `applyTheme`. -/
def baseClass : String := "Headless-base"

/-- `getThemeClass(brand, mode)`: the template literal `` `${brand}-${mode}` ``. -/
def getThemeClass (brand mode : String) : String :=
  brand ++ "-" ++ mode

/-- The class-list computation inside `applyTheme` (lines 46-60 of
`theme-toggle.js`): filter the split class list down to `Headless-base` and
the new theme class, then `unshift` the base class if missing and `push` the
theme class if missing. -/
def applyThemeClassList (brand mode className : String) : List String :=
  let themeClass := getThemeClass brand mode
  let classList := (jsSplitSpace className).filter
    (fun cls => cls == baseClass || cls == themeClass)
  let classList := if classList.contains baseClass then classList
    else baseClass :: classList
  let classList := if classList.contains themeClass then classList
    else classList ++ [themeClass]
  classList

/-- The DOM state the script touches: the root element's class attribute, the
diagnostic elements addressable by id (`none` = absent from the document), the
swatch elements (`data-var` attributes and text contents, in document order),
and the computed style of the root element as a function of its current class
attribute. -/
structure ThemeDoc where
  className : String
  elementText : String → Option String
  swatchVars : List String
  swatchTexts : List String
  style : String → String → String

/-- The id `'current-classes-display'` looked up for `classesDisplay`. -/
def classesDisplayId : String := "current-classes-display"

/-- Events observable from outside the script, for sequencing statements. -/
inductive Event where
  | classWrite (newClassName : String)
  | styleRead (varName : String)
  | storageWrite (key value : String)

/-- `updateClassDisplay()`: if the `classesDisplay` element exists, write the
root element's class string into its text content. -/
def updateClassDisplay (d : ThemeDoc) : ThemeDoc :=
  match d.elementText classesDisplayId with
  | none => d
  | some _ =>
    { d with elementText := fun id =>
        if id = classesDisplayId then some d.className else d.elementText id }

/-- `updateSwatchValues()` with its trace: read each swatch's `data-var`
custom property from the root's computed style, trim it, and write it as the
swatch's text content. -/
def updateSwatchValuesT (d : ThemeDoc) : ThemeDoc × List Event :=
  ({ d with swatchTexts :=
      d.swatchVars.map (fun varName => (d.style d.className varName).trim) },
   d.swatchVars.map Event.styleRead)

/-- The `tokenMap` object of `updateComponentTokenValues`, as the list of
(element id, CSS variable name) pairs in insertion order (the order
`Object.entries` yields). -/
def tokenMap : List (String × String) :=
  [("btn-radius-value", "--button-border-radius"),
   ("btn-font-value", "--button-font-family"),
   ("btn-border-width-value", "--button-border-width"),
   ("heading-font-value", "--heading-sans-serif-font-family"),
   ("body-font-value", "--body-sans"),
   ("heading-size-value", "--heading-m-font-size"),
   ("tag-radius-value", "--tag-border-radius"),
   ("tag-font-value", "--tag-font-family"),
   ("tag-weight-value", "--tag-font-weight")]

/-- One iteration of the `Object.entries(tokenMap).forEach` body: look the
element up by id; if present, set its text to the trimmed resolved value of
its variable (reading the `computedStyle` captured before the loop). -/
def setComponentToken (computedStyle : String → String) (d : ThemeDoc)
    (entry : String × String) : ThemeDoc :=
  match d.elementText entry.1 with
  | none => d
  | some _ =>
    { d with elementText := fun id =>
        if id = entry.1 then some ((computedStyle entry.2).trim)
        else d.elementText id }

/-- The trace of one `forEach` iteration: `getPropertyValue` is only called
when the element is present. -/
def setComponentTokenEvents (d : ThemeDoc) (entry : String × String) :
    List Event :=
  match d.elementText entry.1 with
  | none => []
  | some _ => [Event.styleRead entry.2]

/-- One `forEach` iteration paired with its trace accumulation. -/
def componentStep (computedStyle : String → String)
    (acc : ThemeDoc × List Event) (entry : String × String) :
    ThemeDoc × List Event :=
  (setComponentToken computedStyle acc.1 entry,
   acc.2 ++ setComponentTokenEvents acc.1 entry)

/-- `updateComponentTokenValues()` with its trace: capture the computed style
once, then process every `tokenMap` entry in order. -/
def updateComponentTokenValuesT (d : ThemeDoc) : ThemeDoc × List Event :=
  let computedStyle := d.style d.className
  tokenMap.foldl (componentStep computedStyle) (d, [])

/-- `updateComponentTokenValues()` (state part). -/
def updateComponentTokenValues (d : ThemeDoc) : ThemeDoc :=
  (updateComponentTokenValuesT d).1

/-- `applyTheme(brand, mode)` with its trace: rewrite the whole class
attribute, then update the class display, the swatch values and the component
token values, in that order. -/
def applyThemeT (brand mode : String) (d : ThemeDoc) : ThemeDoc × List Event :=
  let newClassName := joinSpace (applyThemeClassList brand mode d.className)
  let d1 : ThemeDoc := { d with className := newClassName }
  let d2 := updateClassDisplay d1
  let r3 := updateSwatchValuesT d2
  let r4 := updateComponentTokenValuesT r3.1
  (r4.1, Event.classWrite newClassName :: (r3.2 ++ r4.2))

/-- `applyTheme(brand, mode)` (state part). -/
def applyTheme (brand mode : String) (d : ThemeDoc) : ThemeDoc :=
  (applyThemeT brand mode d).1

/-- The persistence medium: `localStorage`'s data, plus oracles for which
operations throw (storage disabled, quota exceeded, ...). -/
structure Store where
  data : String → Option String
  setFails : String → String → Bool
  getFails : Bool

/-- The error message a failing storage operation throws with, in the model. -/
def storageError : String := "QuotaExceededError"

/-- `localStorage.setItem(k, v)`: throws (`Except.error`) when the failure
oracle says so, otherwise stores the value. -/
def setItem (st : Store) (k v : String) : Except String Store :=
  if st.setFails k v then Except.error storageError
  else Except.ok { st with data := fun key => if key = k then some v else st.data key }

/-- `localStorage.getItem(k)`: throws when reads fail, otherwise the stored
value or `null` (`none`). -/
def getItem (st : Store) (k : String) : Except String (Option String) :=
  if st.getFails then Except.error storageError
  else Except.ok (st.data k)

/-- The `try` block of `saveToStorage`: write the brand key, then the mode
key; stop at the first throw, keeping any write already performed. Returns
the store after the attempts, the thrown error if any, and one
`storageWrite` event per `setItem` call attempted. -/
def saveToStorageTry (brand mode : String) (st : Store) :
    Store × Option String × List Event :=
  match setItem st STORAGE_KEY_BRAND brand with
  | Except.error e =>
    (st, some e, [Event.storageWrite STORAGE_KEY_BRAND brand])
  | Except.ok st1 =>
    match setItem st1 STORAGE_KEY_MODE mode with
    | Except.error e =>
      (st1, some e,
       [Event.storageWrite STORAGE_KEY_BRAND brand,
        Event.storageWrite STORAGE_KEY_MODE mode])
    | Except.ok st2 =>
      (st2, none,
       [Event.storageWrite STORAGE_KEY_BRAND brand,
        Event.storageWrite STORAGE_KEY_MODE mode])

/-- `saveToStorage(brand, mode)` with its trace: the `try`/`catch` around the
two writes. Any throw is caught and logged as a warning; the function always
returns. -/
def saveToStorageT (brand mode : String) (st : Store) :
    (Store × List String) × List Event :=
  let r := saveToStorageTry brand mode st
  match r.2.1 with
  | some e => ((r.1, ["Failed to save theme preferences: " ++ e]), r.2.2)
  | none => ((r.1, []), r.2.2)

/-- `saveToStorage(brand, mode)`: store state and warning log. -/
def saveToStorage (brand mode : String) (st : Store) : Store × List String :=
  (saveToStorageT brand mode st).1

/-- The object `loadFromStorage` returns: `brand`/`mode`, each a string or
`null` (`none`). -/
structure Saved where
  brand : Option String
  mode : Option String

/-- `loadFromStorage()`: read both keys inside `try`; if either read throws,
return `{ brand: null, mode: null }` and log a warning. -/
def loadFromStorage (st : Store) : Saved × List String :=
  match getItem st STORAGE_KEY_BRAND with
  | Except.error e =>
    (⟨none, none⟩, ["Failed to load theme preferences: " ++ e])
  | Except.ok b =>
    match getItem st STORAGE_KEY_MODE with
    | Except.error e =>
      (⟨none, none⟩, ["Failed to load theme preferences: " ++ e])
    | Except.ok m => (⟨b, m⟩, [])

/-- The whole client-side state: the document, the storage, and the two
select controls' current values. -/
structure AppState where
  doc : ThemeDoc
  store : Store
  brandSelect : String
  modeSelect : String

/-- `handleBrandChange()` (and the identical `handleModeChange()`) with its
trace: read both selects, apply the theme, then save to storage. -/
def handleBrandChangeT (s : AppState) : AppState × List Event :=
  let brand := s.brandSelect
  let mode := s.modeSelect
  let ra := applyThemeT brand mode s.doc
  let rs := saveToStorageT brand mode s.store
  ({ s with doc := ra.1, store := rs.1.1 }, ra.2 ++ rs.2)

/-- `handleBrandChange()` (state part). -/
def handleBrandChange (s : AppState) : AppState :=
  (handleBrandChangeT s).1

/-- JS `x || dflt` on a string-or-null value: `null` and the empty string are
falsy, every other string is truthy. -/
def jsOrDefault (v : Option String) (dflt : String) : String :=
  match v with
  | none => dflt
  | some s => if s = "" then dflt else s

/-- `init()`: load saved preferences, fall back to the defaults `'Brand-A'` /
`'Lightmode'`, seed the selects, and apply the initial theme. -/
def init (s : AppState) : AppState :=
  let saved := (loadFromStorage s.store).1
  let brand := jsOrDefault saved.brand "Brand-A"
  let mode := jsOrDefault saved.mode "Lightmode"
  let s1 : AppState := { s with brandSelect := brand, modeSelect := mode }
  { s1 with doc := applyTheme brand mode s1.doc }

/-- A brand or mode identifier as the spec's data model demands: a non-empty
string; for the class-attribute round trip we also record that identifiers
contain no space character. -/
def validIdent (s : String) : Prop :=
  s ≠ "" ∧ ' ' ∉ s.toList

instance (s : String) : Decidable (validIdent s) := by
  unfold validIdent; infer_instance

/-- A minimal concrete document used to instantiate theorems: a root element
with the given class attribute and no diagnostic elements. -/
def mkDoc (cn : String) : ThemeDoc :=
  { className := cn,
    elementText := fun _ => none,
    swatchVars := [], swatchTexts := [],
    style := fun _ _ => "" }

/-- A concrete store holding the given key/value data, whose operations never
throw. -/
def mkStore (data : String → Option String) : Store :=
  { data := data, setFails := fun _ _ => false, getFails := false }

/-- A concrete store whose every write throws (storage disabled). -/
def failingStore : Store :=
  { data := fun _ => none, setFails := fun _ _ => true, getFails := false }

/-- A concrete application state for instantiating theorems. -/
def mkApp (cn : String) (st : Store) (brand mode : String) : AppState :=
  { doc := mkDoc cn, store := st, brandSelect := brand, modeSelect := mode }

/-- A concrete document holding one diagnostic element with the given id, and
a computed style resolving every variable to `" 8px "`. -/
def docWithElement (cn id0 txt : String) : ThemeDoc :=
  { className := cn,
    elementText := fun id => if id = id0 then some txt else none,
    swatchVars := [], swatchTexts := [],
    style := fun _ _ => " 8px " }

end ThemeToggle

namespace ThemeToggle

theorem toList_append (s t : String) : (s ++ t).toList = s.toList ++ t.toList :=
  rfl

theorem toList_getThemeClass (brand mode : String) :
    (getThemeClass brand mode).toList = brand.toList ++ '-' :: mode.toList := by
  show (brand ++ "-" ++ mode).toList = _
  rw [toList_append, toList_append, List.append_assoc]
  rfl

/-- Splitting the joined list recovers the parts, when every part is
non-empty and space-free. -/
theorem jsSplitSpace_joinSpace (parts : List String)
    (hne : parts ≠ [])
    (hok : ∀ p ∈ parts, p ≠ "" ∧ ' ' ∉ p.toList) :
    jsSplitSpace (joinSpace parts) = parts := by
  unfold jsSplitSpace joinSpace
  have h1 : (String.mk (List.intercalate [' '] (parts.map String.toList))).toList
      = List.intercalate [' '] (parts.map String.toList) := rfl
  rw [h1]
  rw [List.splitOn_intercalate]
  · simp only [List.map_map]
    have : (fun cs => String.mk cs) ∘ String.toList = id := by
      funext s; rfl
    rw [this, List.map_id]
  · intro l hl
    simp only [List.mem_map] at hl
    obtain ⟨p, hp, rfl⟩ := hl
    exact (hok p hp).2
  · simpa using hne

theorem contains_iff {l : List String} {a : String} :
    l.contains a = true ↔ a ∈ l := by
  simp [List.contains]

theorem updateClassDisplay_className (d : ThemeDoc) :
    (updateClassDisplay d).className = d.className := by
  unfold updateClassDisplay
  cases h : d.elementText classesDisplayId <;> simp [h]

theorem setComponentToken_className (cs : String → String) (d : ThemeDoc)
    (entry : String × String) :
    (setComponentToken cs d entry).className = d.className := by
  unfold setComponentToken
  cases h : d.elementText entry.1 <;> simp [h]

theorem foldl_componentStep_className (cs : String → String)
    (entries : List (String × String)) (p : ThemeDoc × List Event) :
    ((entries.foldl (componentStep cs) p).1).className = (p.1).className := by
  induction entries generalizing p with
  | nil => rfl
  | cons e es ih =>
    rw [List.foldl_cons, ih, componentStep, setComponentToken_className]

theorem updateComponentTokenValues_className (d : ThemeDoc) :
    (updateComponentTokenValues d).className = d.className := by
  unfold updateComponentTokenValues updateComponentTokenValuesT
  exact foldl_componentStep_className _ _ _

theorem applyTheme_className (brand mode : String) (d : ThemeDoc) :
    (applyTheme brand mode d).className
      = joinSpace (applyThemeClassList brand mode d.className) := by
  unfold applyTheme applyThemeT
  simp only []
  rw [show (updateComponentTokenValuesT _).1 = updateComponentTokenValues _ from rfl,
    updateComponentTokenValues_className]
  show (updateSwatchValuesT _).1.className = _
  unfold updateSwatchValuesT
  simp only []
  rw [show ({ updateClassDisplay _ with swatchTexts := _ } : ThemeDoc).className
      = (updateClassDisplay _).className from rfl, updateClassDisplay_className]

/-- Every element of the class list `applyTheme` computes is the base class
or the theme class, and both are present: exactly the two-class reset. -/
theorem mem_applyThemeClassList (brand mode className t : String) :
    t ∈ applyThemeClassList brand mode className ↔
      (t = baseClass ∨ t = getThemeClass brand mode) := by
  unfold applyThemeClassList
  simp only []
  set tc := getThemeClass brand mode with htc
  set f := (jsSplitSpace className).filter
    (fun cls => cls == baseClass || cls == tc) with hfdef
  have hfall : ∀ x ∈ f, x = baseClass ∨ x = tc := by
    intro x hx
    rw [hfdef, List.mem_filter] at hx
    simpa using hx.2
  by_cases hb : f.contains baseClass = true
  · rw [if_pos hb]
    by_cases ht : f.contains tc = true
    · rw [if_pos ht]
      constructor
      · exact hfall t
      · rintro (rfl | rfl)
        · exact contains_iff.mp hb
        · exact contains_iff.mp ht
    · rw [if_neg ht]
      constructor
      · intro h
        rcases List.mem_append.mp h with h | h
        · exact hfall t h
        · right; simpa using h
      · rintro (rfl | rfl)
        · exact List.mem_append.mpr (Or.inl (contains_iff.mp hb))
        · exact List.mem_append.mpr (Or.inr (List.mem_singleton.mpr rfl))
  · rw [if_neg hb]
    by_cases ht : (baseClass :: f).contains tc = true
    · rw [if_pos ht]
      constructor
      · intro h
        rcases List.mem_cons.mp h with h | h
        · exact Or.inl h
        · exact hfall t h
      · rintro (rfl | rfl)
        · exact List.mem_cons_self _ _
        · exact contains_iff.mp ht
    · rw [if_neg ht]
      constructor
      · intro h
        rcases List.mem_append.mp h with h | h
        · rcases List.mem_cons.mp h with h | h
          · exact Or.inl h
          · exact hfall t h
        · right; simpa using h
      · rintro (rfl | rfl)
        · exact List.mem_append.mpr (Or.inl (List.mem_cons_self _ _))
        · exact List.mem_append.mpr (Or.inr (List.mem_singleton.mpr rfl))

/-- The class list `applyTheme` computes is never empty. -/
theorem applyThemeClassList_ne_nil (brand mode className : String) :
    applyThemeClassList brand mode className ≠ [] := by
  intro h
  have := (mem_applyThemeClassList brand mode className baseClass).mpr (Or.inl rfl)
  rw [h] at this
  exact List.not_mem_nil _ this

/-- Under valid identifiers, every element of the computed class list is
non-empty and space-free, so join-then-split recovers it. -/
theorem jsSplitSpace_applyTheme (brand mode : String)
    (hbrand : validIdent brand) (hmode : validIdent mode) (d : ThemeDoc) :
    jsSplitSpace ((applyTheme brand mode d).className)
      = applyThemeClassList brand mode d.className := by
  rw [applyTheme_className]
  apply jsSplitSpace_joinSpace
  · exact applyThemeClassList_ne_nil _ _ _
  · intro p hp
    rcases (mem_applyThemeClassList brand mode d.className p).mp hp with rfl | rfl
    · exact ⟨by decide, by decide⟩
    · constructor
      · intro h
        have := congrArg String.toList h
        rw [toList_getThemeClass] at this
        simp at this
      · rw [toList_getThemeClass]
        intro h
        rcases List.mem_append.mp h with h | h
        · exact hbrand.2 h
        · rcases List.mem_cons.mp h with h | h
          · exact absurd h (by decide)
          · exact hmode.2 h

end ThemeToggle

namespace ThemeToggle

/-- C1: for valid brand `B` and mode `M`, after `applyTheme(B, M)` the set of
class tokens on the root element is exactly
`{"Headless-base", B ++ "-" ++ M}`, whatever classes were present before:
a token is present iff it is one of those two. -/
theorem applyTheme_class_set (B M : String)
    (hB : validIdent B) (hM : validIdent M) (d : ThemeDoc) (t : String) :
    t ∈ jsSplitSpace ((applyTheme B M d).className) ↔
      (t = baseClass ∨ t = getThemeClass B M) := by
  rw [jsSplitSpace_applyTheme B M hB hM d]
  exact mem_applyThemeClassList B M d.className t

/-- Witness for C1 at a concrete document whose root carries stale and
duplicate classes. -/
theorem applyTheme_class_set_witness :
    validIdent "Brand-B" ∧ validIdent "Darkmode" ∧
      ("Brand-B-Darkmode" ∈ jsSplitSpace ((applyTheme "Brand-B" "Darkmode"
          (mkDoc "Headless-base Brand-A-Lightmode junk junk")).className) ↔
        ("Brand-B-Darkmode" = baseClass ∨
         "Brand-B-Darkmode" = getThemeClass "Brand-B" "Darkmode")) :=
  ⟨by decide, by decide,
   applyTheme_class_set "Brand-B" "Darkmode" (by decide) (by decide)
     (mkDoc "Headless-base Brand-A-Lightmode junk junk") "Brand-B-Darkmode"⟩

/-- C7: `getThemeClass` is literally `brand ++ "-" ++ mode`, with no other
transformation, total on all strings; in particular
`getThemeClass "Brand-A" "Lightmode" = "Brand-A-Lightmode"`. -/
theorem getThemeClass_spec (brand mode : String) :
    (getThemeClass brand mode).toList = brand.toList ++ '-' :: mode.toList ∧
    getThemeClass "Brand-A" "Lightmode" = "Brand-A-Lightmode" :=
  ⟨toList_getThemeClass brand mode, rfl⟩

end ThemeToggle

namespace ThemeToggle

/-- C9: when the computed theme class coincides with the base-class literal
(brand `"Headless"`, mode `"base"`), `applyTheme` leaves the root element
with the single class token `"Headless-base"`: a token is present iff it is
the base class, so the class set is `{"Headless-base"}`, not a two-element
set. -/
theorem applyTheme_base_coincidence (d : ThemeDoc) (t : String) :
    t ∈ jsSplitSpace ((applyTheme "Headless" "base" d).className) ↔
      t = baseClass := by
  rw [jsSplitSpace_applyTheme "Headless" "base" (by decide) (by decide) d,
    mem_applyThemeClassList]
  have h : getThemeClass "Headless" "base" = baseClass := by decide
  rw [h, or_self]

/-- C2 counterexample: with the prior class attribute
`"Headless-base Headless-base"`, the class attribute `applyTheme` writes
contains the base class twice, not exactly once: the filter keeps duplicate
occurrences. -/
theorem applyTheme_duplicates_counterexample :
    ¬ ((jsSplitSpace ((applyTheme "Brand-A" "Lightmode"
          (mkDoc "Headless-base Headless-base")).className)).count baseClass
        = 1) := by
  decide

/-- C2 amended: after `applyTheme(B, M)` with valid identifiers, the class
attribute contains exactly one occurrence of the base class and exactly one
of `B ++ "-" ++ M`, provided the prior class attribute contained at most one
occurrence of each (duplicate prior occurrences survive the filter, so the
exactly-once property needs this precondition). -/
theorem applyTheme_single_occurrence (B M : String)
    (hB : validIdent B) (hM : validIdent M) (d : ThemeDoc)
    (hbase : (jsSplitSpace d.className).count baseClass ≤ 1)
    (htheme : (jsSplitSpace d.className).count (getThemeClass B M) ≤ 1) :
    (jsSplitSpace ((applyTheme B M d).className)).count baseClass = 1 ∧
    (jsSplitSpace ((applyTheme B M d).className)).count (getThemeClass B M)
      = 1 := by
  rw [jsSplitSpace_applyTheme B M hB hM d]
  unfold applyThemeClassList
  simp only []
  set tc := getThemeClass B M with htcdef
  set l := jsSplitSpace d.className with hldef
  set f := l.filter (fun cls => cls == baseClass || cls == tc) with hfdef
  have hcbase : f.count baseClass = l.count baseClass := by
    rw [hfdef]; exact List.count_filter (by simp)
  have hctc : f.count tc = l.count tc := by
    rw [hfdef]; exact List.count_filter (by simp)
  by_cases hb : f.contains baseClass = true
  · rw [if_pos hb]
    have h1 : f.count baseClass = 1 :=
      le_antisymm (hcbase ▸ hbase)
        (List.count_pos_iff.mpr (contains_iff.mp hb))
    by_cases ht : f.contains tc = true
    · rw [if_pos ht]
      exact ⟨h1, le_antisymm (hctc ▸ htheme)
        (List.count_pos_iff.mpr (contains_iff.mp ht))⟩
    · rw [if_neg ht]
      have htne : tc ∉ f := fun hmem => ht (contains_iff.mpr hmem)
      have hbne : tc ≠ baseClass := by
        intro he; exact htne (he ▸ contains_iff.mp hb)
      constructor
      · rw [List.count_append, h1, List.count_singleton]
        simp [hbne]
      · rw [List.count_append, List.count_eq_zero.mpr htne,
          List.count_singleton]
        simp
  · rw [if_neg hb]
    have hbnotin : baseClass ∉ f := fun hmem => hb (contains_iff.mpr hmem)
    have h1 : (baseClass :: f).count baseClass = 1 := by
      rw [List.count_cons_self, List.count_eq_zero.mpr hbnotin]
    by_cases ht : (baseClass :: f).contains tc = true
    · rw [if_pos ht]
      by_cases he : tc = baseClass
      · rw [he]
        exact ⟨h1, h1⟩
      · have htf : tc ∈ f := by
          rcases List.mem_cons.mp (contains_iff.mp ht) with h | h
          · exact absurd h he
          · exact h
        have h2 : (baseClass :: f).count tc = 1 := by
          rw [List.count_cons_of_ne he]
          exact le_antisymm (hctc ▸ htheme) (List.count_pos_iff.mpr htf)
        exact ⟨h1, h2⟩
    · rw [if_neg ht]
      have htne : tc ∉ baseClass :: f :=
        fun hmem => ht (contains_iff.mpr hmem)
      have hbne : tc ≠ baseClass := fun he =>
        htne (he ▸ List.mem_cons_self _ _)
      constructor
      · rw [List.count_append, h1, List.count_singleton]
        simp [hbne]
      · rw [List.count_append, List.count_eq_zero.mpr htne,
          List.count_singleton]
        simp

/-- Witness for the amended C2 at a concrete document carrying a stale
brand-mode class. -/
theorem applyTheme_single_occurrence_witness :
    validIdent "Brand-A" ∧ validIdent "Lightmode" ∧
      (jsSplitSpace (mkDoc "Headless-base Brand-B-Darkmode").className).count
        baseClass ≤ 1 ∧
      (jsSplitSpace (mkDoc "Headless-base Brand-B-Darkmode").className).count
        (getThemeClass "Brand-A" "Lightmode") ≤ 1 ∧
      ((jsSplitSpace ((applyTheme "Brand-A" "Lightmode"
          (mkDoc "Headless-base Brand-B-Darkmode")).className)).count
            baseClass = 1 ∧
       (jsSplitSpace ((applyTheme "Brand-A" "Lightmode"
          (mkDoc "Headless-base Brand-B-Darkmode")).className)).count
            (getThemeClass "Brand-A" "Lightmode") = 1) :=
  ⟨by decide, by decide, by decide, by decide,
   applyTheme_single_occurrence "Brand-A" "Lightmode" (by decide) (by decide)
     (mkDoc "Headless-base Brand-B-Darkmode") (by decide) (by decide)⟩

end ThemeToggle

namespace ThemeToggle

/-- C8: `saveToStorage` is not atomic across its two keys: when the brand-key
write succeeds and the mode-key write throws, it still returns normally
(warning logged), leaving the store with the new brand value and the old mode
value — the first write is not rolled back. -/
theorem saveToStorage_not_atomic (brand mode : String) (st : Store)
    (h1 : st.setFails STORAGE_KEY_BRAND brand = false)
    (h2 : st.setFails STORAGE_KEY_MODE mode = true) :
    (saveToStorage brand mode st).1.data STORAGE_KEY_BRAND = some brand ∧
    (saveToStorage brand mode st).1.data STORAGE_KEY_MODE
      = st.data STORAGE_KEY_MODE ∧
    (saveToStorage brand mode st).2
      = ["Failed to save theme preferences: " ++ storageError] := by
  unfold saveToStorage saveToStorageT saveToStorageTry setItem
  have hne : STORAGE_KEY_MODE ≠ STORAGE_KEY_BRAND := by decide
  simp [h1, h2, hne]

/-- Witness for C8: a store that accepts the brand key but rejects the mode
key, previously holding `"Darkmode"` under the mode key. -/
theorem saveToStorage_not_atomic_witness :
    ({ data := fun k => if k = STORAGE_KEY_MODE then some "Darkmode" else none,
       setFails := fun k _ => k = STORAGE_KEY_MODE,
       getFails := false : Store }.setFails STORAGE_KEY_BRAND "Brand-B"
        = false) ∧
    ({ data := fun k => if k = STORAGE_KEY_MODE then some "Darkmode" else none,
       setFails := fun k _ => k = STORAGE_KEY_MODE,
       getFails := false : Store }.setFails STORAGE_KEY_MODE "Lightmode"
        = true) ∧
    ((saveToStorage "Brand-B" "Lightmode"
        { data := fun k => if k = STORAGE_KEY_MODE then some "Darkmode" else none,
          setFails := fun k _ => k = STORAGE_KEY_MODE,
          getFails := false }).1.data STORAGE_KEY_BRAND = some "Brand-B" ∧
     (saveToStorage "Brand-B" "Lightmode"
        { data := fun k => if k = STORAGE_KEY_MODE then some "Darkmode" else none,
          setFails := fun k _ => k = STORAGE_KEY_MODE,
          getFails := false }).1.data STORAGE_KEY_MODE
        = { data := fun k => if k = STORAGE_KEY_MODE then some "Darkmode" else none,
            setFails := fun k _ => k = STORAGE_KEY_MODE,
            getFails := false : Store }.data STORAGE_KEY_MODE ∧
     (saveToStorage "Brand-B" "Lightmode"
        { data := fun k => if k = STORAGE_KEY_MODE then some "Darkmode" else none,
          setFails := fun k _ => k = STORAGE_KEY_MODE,
          getFails := false }).2
        = ["Failed to save theme preferences: " ++ storageError]) :=
  ⟨by decide, by decide,
   saveToStorage_not_atomic "Brand-B" "Lightmode" _ (by decide) (by decide)⟩

/-- C4: when any storage write throws, `saveToStorage` catches it, logs a
single warning, and returns; no exception escapes, and the document produced
by the change handler is still exactly the one `applyTheme` produced. -/
theorem saveToStorage_failure_contained (s : AppState)
    (h : s.store.setFails STORAGE_KEY_BRAND s.brandSelect = true ∨
         s.store.setFails STORAGE_KEY_MODE s.modeSelect = true) :
    (saveToStorage s.brandSelect s.modeSelect s.store).2
      = ["Failed to save theme preferences: " ++ storageError] ∧
    (handleBrandChange s).doc
      = applyTheme s.brandSelect s.modeSelect s.doc := by
  constructor
  · unfold saveToStorage saveToStorageT saveToStorageTry setItem
    by_cases hb : s.store.setFails STORAGE_KEY_BRAND s.brandSelect = true
    · simp [hb]
    · have hm : s.store.setFails STORAGE_KEY_MODE s.modeSelect = true :=
        h.resolve_left hb
      simp [hb, hm]
  · rfl

/-- Witness for C4: a store whose every write throws (storage disabled). -/
theorem saveToStorage_failure_contained_witness :
    ((mkApp "Headless-base" failingStore "Brand-A" "Lightmode").store.setFails
        STORAGE_KEY_BRAND
        (mkApp "Headless-base" failingStore "Brand-A" "Lightmode").brandSelect
          = true ∨
     (mkApp "Headless-base" failingStore "Brand-A" "Lightmode").store.setFails
        STORAGE_KEY_MODE
        (mkApp "Headless-base" failingStore "Brand-A" "Lightmode").modeSelect
          = true) ∧
    ((saveToStorage "Brand-A" "Lightmode" failingStore).2
        = ["Failed to save theme preferences: " ++ storageError] ∧
     (handleBrandChange
        (mkApp "Headless-base" failingStore "Brand-A" "Lightmode")).doc
        = applyTheme "Brand-A" "Lightmode" (mkDoc "Headless-base")) :=
  ⟨Or.inl (by decide),
   saveToStorage_failure_contained
     (mkApp "Headless-base" failingStore "Brand-A" "Lightmode")
     (Or.inl (by decide))⟩

end ThemeToggle

namespace ThemeToggle

theorem loadFromStorage_brand (st : Store) :
    (loadFromStorage st).1.brand
      = if st.getFails = true then none else st.data STORAGE_KEY_BRAND := by
  unfold loadFromStorage getItem
  by_cases h : st.getFails = true <;> simp [h]

theorem loadFromStorage_mode (st : Store) :
    (loadFromStorage st).1.mode
      = if st.getFails = true then none else st.data STORAGE_KEY_MODE := by
  unfold loadFromStorage getItem
  by_cases h : st.getFails = true <;> simp [h]

theorem init_brandSelect (s : AppState) :
    (init s).brandSelect
      = jsOrDefault (loadFromStorage s.store).1.brand "Brand-A" := rfl

theorem init_modeSelect (s : AppState) :
    (init s).modeSelect
      = jsOrDefault (loadFromStorage s.store).1.mode "Lightmode" := rfl

theorem init_doc (s : AppState) :
    (init s).doc
      = applyTheme (jsOrDefault (loadFromStorage s.store).1.brand "Brand-A")
          (jsOrDefault (loadFromStorage s.store).1.mode "Lightmode")
          s.doc := rfl

theorem jsOrDefault_some_of_ne (s d : String) (h : s ≠ "") :
    jsOrDefault (some s) d = s := by
  simp [jsOrDefault, h]

theorem jsOrDefault_ne_empty (v : Option String) (d : String) (hd : d ≠ "") :
    jsOrDefault v d ≠ "" := by
  cases v with
  | none => exact hd
  | some s =>
    by_cases h : s = ""
    · simpa [jsOrDefault, h] using hd
    · simp [jsOrDefault, h]

/-- C10: at startup a stored empty string is as good as an absent value: the
hard-coded defaults replace it (JS `||` treats `""` as falsy), so the
selection seeded from storage is never empty. -/
theorem init_empty_string_as_absent (s : AppState) :
    (s.store.data STORAGE_KEY_BRAND = some "" →
      (init s).brandSelect = "Brand-A") ∧
    (s.store.data STORAGE_KEY_MODE = some "" →
      (init s).modeSelect = "Lightmode") ∧
    (init s).brandSelect ≠ "" ∧ (init s).modeSelect ≠ "" := by
  refine ⟨?_, ?_, ?_, ?_⟩
  · intro h
    rw [init_brandSelect, loadFromStorage_brand]
    by_cases hg : s.store.getFails = true <;> simp [hg, h, jsOrDefault]
  · intro h
    rw [init_modeSelect, loadFromStorage_mode]
    by_cases hg : s.store.getFails = true <;> simp [hg, h, jsOrDefault]
  · rw [init_brandSelect]
    exact jsOrDefault_ne_empty _ _ (by decide)
  · rw [init_modeSelect]
    exact jsOrDefault_ne_empty _ _ (by decide)

/-- Witness for C10: a store persisting empty strings under both keys. -/
theorem init_empty_string_as_absent_witness :
    ((mkApp "x" (mkStore fun k =>
        if k = STORAGE_KEY_BRAND ∨ k = STORAGE_KEY_MODE then some "" else none)
        "b" "m").store.data STORAGE_KEY_BRAND = some "") ∧
    ((init (mkApp "x" (mkStore fun k =>
        if k = STORAGE_KEY_BRAND ∨ k = STORAGE_KEY_MODE then some "" else none)
        "b" "m")).brandSelect = "Brand-A") ∧
    ((init (mkApp "x" (mkStore fun k =>
        if k = STORAGE_KEY_BRAND ∨ k = STORAGE_KEY_MODE then some "" else none)
        "b" "m")).modeSelect = "Lightmode") ∧
    (init (mkApp "x" (mkStore fun k =>
        if k = STORAGE_KEY_BRAND ∨ k = STORAGE_KEY_MODE then some "" else none)
        "b" "m")).brandSelect ≠ "" :=
  ⟨by decide,
   (init_empty_string_as_absent _).1 (by decide),
   (init_empty_string_as_absent _).2.1 (by decide),
   (init_empty_string_as_absent _).2.2.1⟩

end ThemeToggle

namespace ThemeToggle

/-- C5: startup behaviour. If the store holds brand `"Brand-B"` and mode
`"Darkmode"`, `init` ends with class set `{Headless-base, Brand-B-Darkmode}`
with no user interaction; if the store is empty or its read throws, `load`
yields both fields absent (`null`) and `init` applies the defaults, ending
with class set `{Headless-base, Brand-A-Lightmode}`. -/
theorem init_startup (s : AppState) (t : String) :
    (s.store.getFails = false →
     s.store.data STORAGE_KEY_BRAND = some "Brand-B" →
     s.store.data STORAGE_KEY_MODE = some "Darkmode" →
     (t ∈ jsSplitSpace ((init s).doc.className) ↔
       (t = baseClass ∨ t = "Brand-B-Darkmode"))) ∧
    ((s.store.getFails = true ∨
      (s.store.data STORAGE_KEY_BRAND = none ∧
       s.store.data STORAGE_KEY_MODE = none)) →
     ((loadFromStorage s.store).1.brand = none ∧
      (loadFromStorage s.store).1.mode = none ∧
      (t ∈ jsSplitSpace ((init s).doc.className) ↔
        (t = baseClass ∨ t = "Brand-A-Lightmode")))) := by
  constructor
  · intro hg hb hm
    rw [init_doc, loadFromStorage_brand, loadFromStorage_mode, hg, hb, hm]
    simp only [Bool.false_eq_true, if_false]
    rw [jsOrDefault_some_of_ne _ _ (by decide),
      jsOrDefault_some_of_ne _ _ (by decide),
      jsSplitSpace_applyTheme "Brand-B" "Darkmode" (by decide) (by decide),
      mem_applyThemeClassList,
      (by decide : getThemeClass "Brand-B" "Darkmode" = "Brand-B-Darkmode")]
  · intro h
    have hload : (loadFromStorage s.store).1.brand = none ∧
        (loadFromStorage s.store).1.mode = none := by
      rcases h with hg | ⟨hb, hm⟩
      · rw [loadFromStorage_brand, loadFromStorage_mode, hg]
        exact ⟨rfl, rfl⟩
      · rw [loadFromStorage_brand, loadFromStorage_mode, hb, hm]
        exact ⟨ite_self none, ite_self none⟩
    refine ⟨hload.1, hload.2, ?_⟩
    rw [init_doc, hload.1, hload.2]
    show t ∈ jsSplitSpace
        ((applyTheme "Brand-A" "Lightmode" s.doc).className) ↔ _
    rw [jsSplitSpace_applyTheme "Brand-A" "Lightmode" (by decide) (by decide),
      mem_applyThemeClassList,
      (by decide : getThemeClass "Brand-A" "Lightmode" = "Brand-A-Lightmode")]

/-- Witness for C5: a store persisting (Brand-B, Darkmode), and an empty
store; in the first the persisted brand-mode class is present after `init`,
in the second the default one is. -/
theorem init_startup_witness :
    ("Brand-B-Darkmode" ∈ jsSplitSpace
        ((init (mkApp "x" (mkStore fun k =>
            if k = STORAGE_KEY_BRAND then some "Brand-B"
            else if k = STORAGE_KEY_MODE then some "Darkmode"
            else none) "b" "m")).doc.className) ↔
      ("Brand-B-Darkmode" = baseClass ∨
       "Brand-B-Darkmode" = "Brand-B-Darkmode")) ∧
    ((loadFromStorage (mkStore fun _ => none)).1.brand = none ∧
     (loadFromStorage (mkStore fun _ => none)).1.mode = none ∧
     ("Brand-A-Lightmode" ∈ jsSplitSpace
        ((init (mkApp "x" (mkStore fun _ => none) "b" "m")).doc.className) ↔
       ("Brand-A-Lightmode" = baseClass ∨
        "Brand-A-Lightmode" = "Brand-A-Lightmode"))) :=
  ⟨(init_startup (mkApp "x" (mkStore fun k =>
      if k = STORAGE_KEY_BRAND then some "Brand-B"
      else if k = STORAGE_KEY_MODE then some "Darkmode"
      else none) "b" "m") "Brand-B-Darkmode").1
        (by decide) (by decide) (by decide),
   (init_startup (mkApp "x" (mkStore fun _ => none) "b" "m")
      "Brand-A-Lightmode").2 (Or.inr ⟨rfl, rfl⟩)⟩

end ThemeToggle

namespace ThemeToggle

theorem setComponentToken_elementText_ne (cs : String → String) (d : ThemeDoc)
    (entry : String × String) (id : String) (h : id ≠ entry.1) :
    (setComponentToken cs d entry).elementText id = d.elementText id := by
  unfold setComponentToken
  cases he : d.elementText entry.1 <;> simp [he, h]

theorem foldl_componentStep_elementText_notMem (cs : String → String)
    (entries : List (String × String)) (id : String)
    (h : id ∉ entries.map Prod.fst) (p : ThemeDoc × List Event) :
    ((entries.foldl (componentStep cs) p).1).elementText id
      = (p.1).elementText id := by
  induction entries generalizing p with
  | nil => rfl
  | cons e es ih =>
    simp only [List.map_cons, List.mem_cons, not_or] at h
    rw [List.foldl_cons, ih h.2]
    exact setComponentToken_elementText_ne cs p.1 e id h.1

theorem foldl_componentStep_spec (cs : String → String)
    (entries : List (String × String)) (id varName : String)
    (hnd : (entries.map Prod.fst).Nodup)
    (hmem : (id, varName) ∈ entries) (p : ThemeDoc × List Event) :
    ((p.1).elementText id = none →
      ((entries.foldl (componentStep cs) p).1).elementText id = none) ∧
    (((p.1).elementText id).isSome = true →
      ((entries.foldl (componentStep cs) p).1).elementText id
        = some ((cs varName).trim)) := by
  induction entries generalizing p with
  | nil => cases hmem
  | cons e es ih =>
    rw [List.map_cons, List.nodup_cons] at hnd
    obtain ⟨hne, hnd'⟩ := hnd
    rcases List.mem_cons.mp hmem with heq | hmem'
    · subst heq
      have hid2 : id ∉ es.map Prod.fst := by simpa using hne
      constructor
      · intro h0
        rw [List.foldl_cons,
          foldl_componentStep_elementText_notMem cs es id hid2]
        show (setComponentToken cs p.1 (id, varName)).elementText id = none
        unfold setComponentToken
        rw [show ((id, varName).1 : String) = id from rfl, h0]
        exact h0
      · intro h1
        rw [List.foldl_cons,
          foldl_componentStep_elementText_notMem cs es id hid2]
        show (setComponentToken cs p.1 (id, varName)).elementText id
          = some ((cs varName).trim)
        unfold setComponentToken
        obtain ⟨txt, htxt⟩ := Option.isSome_iff_exists.mp h1
        rw [show ((id, varName).1 : String) = id from rfl, htxt]
        simp
    · have hidmem : id ∈ es.map Prod.fst :=
        List.mem_map.mpr ⟨(id, varName), hmem', rfl⟩
      have hne2 : id ≠ e.1 := fun h => hne (h ▸ hidmem)
      have hstep : ((componentStep cs p e).1).elementText id
          = (p.1).elementText id :=
        setComponentToken_elementText_ne cs p.1 e id hne2
      rw [List.foldl_cons]
      constructor
      · intro h0
        exact (ih hnd' hmem' (componentStep cs p e)).1 (hstep.trans h0)
      · intro h1
        exact (ih hnd' hmem' (componentStep cs p e)).2
          (by rw [hstep]; exact h1)

/-- C6: `updateComponentTokenValues` skips silently every `tokenMap` entry
whose element id is absent from the document (it stays absent, nothing is
thrown — the function is total), and for every entry whose element is
present, the element's text content becomes the resolved value of its mapped
CSS variable, whitespace-trimmed. -/
theorem updateComponentTokenValues_spec (d : ThemeDoc) (id varName : String)
    (hmem : (id, varName) ∈ tokenMap) :
    (d.elementText id = none →
      (updateComponentTokenValues d).elementText id = none) ∧
    ((d.elementText id).isSome = true →
      (updateComponentTokenValues d).elementText id
        = some ((d.style d.className varName).trim)) := by
  unfold updateComponentTokenValues updateComponentTokenValuesT
  exact foldl_componentStep_spec (d.style d.className) tokenMap id varName
    (by decide) hmem (d, [])

/-- Witness for C6: the `btn-radius-value` entry, absent in one document and
present in another whose style resolves every variable to `" 8px "`. -/
theorem updateComponentTokenValues_spec_witness :
    (("btn-radius-value", "--button-border-radius") ∈ tokenMap) ∧
    (updateComponentTokenValues (mkDoc "x")).elementText "btn-radius-value"
      = none ∧
    (updateComponentTokenValues
        (docWithElement "x" "btn-radius-value" "old")).elementText
        "btn-radius-value"
      = some (((docWithElement "x" "btn-radius-value" "old").style
          (docWithElement "x" "btn-radius-value" "old").className
          "--button-border-radius").trim) :=
  ⟨by decide,
   (updateComponentTokenValues_spec (mkDoc "x") "btn-radius-value"
      "--button-border-radius" (by decide)).1 rfl,
   (updateComponentTokenValues_spec (docWithElement "x" "btn-radius-value" "old")
      "btn-radius-value" "--button-border-radius" (by decide)).2 (by decide)⟩

end ThemeToggle

namespace ThemeToggle

theorem updateSwatchValuesT_snd (d : ThemeDoc) :
    (updateSwatchValuesT d).2 = d.swatchVars.map Event.styleRead := rfl

theorem foldl_componentStep_events (cs : String → String)
    (entries : List (String × String)) (p : ThemeDoc × List Event)
    (hp : ∀ ev ∈ p.2, ∃ v, ev = Event.styleRead v) :
    ∀ ev ∈ (entries.foldl (componentStep cs) p).2,
      ∃ v, ev = Event.styleRead v := by
  induction entries generalizing p with
  | nil => exact hp
  | cons e es ih =>
    rw [List.foldl_cons]
    apply ih
    intro ev hev
    have hsnd : (componentStep cs p e).2
        = p.2 ++ setComponentTokenEvents p.1 e := rfl
    rw [hsnd] at hev
    rcases List.mem_append.mp hev with h | h
    · exact hp ev h
    · unfold setComponentTokenEvents at h
      cases he : (p.1).elementText e.1 with
      | none =>
        rw [he] at h
        simp at h
      | some txt =>
        rw [he] at h
        simp at h
        exact ⟨e.2, h⟩

theorem updateComponentTokenValuesT_events (d : ThemeDoc) :
    ∀ ev ∈ (updateComponentTokenValuesT d).2,
      ∃ v, ev = Event.styleRead v := by
  unfold updateComponentTokenValuesT
  exact foldl_componentStep_events _ tokenMap (d, [])
    (fun x hx => absurd hx (List.not_mem_nil x))

theorem saveToStorageT_events (brand mode : String) (st : Store) :
    ∀ ev ∈ (saveToStorageT brand mode st).2,
      ∃ k v, ev = Event.storageWrite k v := by
  intro ev hev
  unfold saveToStorageT saveToStorageTry setItem at hev
  by_cases h1 : st.setFails STORAGE_KEY_BRAND brand = true
  · simp [h1] at hev
    exact ⟨_, _, hev⟩
  · by_cases h2 : st.setFails STORAGE_KEY_MODE mode = true
    · simp [h1, h2] at hev
      rcases hev with rfl | rfl
      · exact ⟨_, _, rfl⟩
      · exact ⟨_, _, rfl⟩
    · simp [h1, h2] at hev
      rcases hev with rfl | rfl
      · exact ⟨_, _, rfl⟩
      · exact ⟨_, _, rfl⟩

theorem applyThemeT_snd (brand mode : String) (d : ThemeDoc) :
    (applyThemeT brand mode d).2
      = Event.classWrite ((applyTheme brand mode d).className)
        :: ((updateSwatchValuesT (updateClassDisplay
              { d with className := (applyTheme brand mode d).className })).2
          ++ (updateComponentTokenValuesT (updateSwatchValuesT
              (updateClassDisplay { d with className :=
                (applyTheme brand mode d).className })).1).2) := by
  rw [applyTheme_className]
  rfl

/-- C3: on a change event the trace is: first the single full class-attribute
write (whose value is the final class attribute), then the display refreshers'
computed-style reads, and only after all of those the storage writes. The
class rewrite completes before any style read, and persistence happens only
after the visual apply, refreshes included. -/
theorem handleBrandChange_sequencing (s : AppState) :
    ∃ reads writes,
      (handleBrandChangeT s).2
        = Event.classWrite
            ((applyTheme s.brandSelect s.modeSelect s.doc).className)
          :: (reads ++ writes) ∧
      (∀ ev ∈ reads, ∃ v, ev = Event.styleRead v) ∧
      (∀ ev ∈ writes, ∃ k v, ev = Event.storageWrite k v) := by
  refine ⟨(updateSwatchValuesT (updateClassDisplay
      { s.doc with className :=
          (applyTheme s.brandSelect s.modeSelect s.doc).className })).2
    ++ (updateComponentTokenValuesT (updateSwatchValuesT (updateClassDisplay
      { s.doc with className :=
          (applyTheme s.brandSelect s.modeSelect s.doc).className })).1).2,
    (saveToStorageT s.brandSelect s.modeSelect s.store).2, ?_, ?_, ?_⟩
  · show (applyThemeT s.brandSelect s.modeSelect s.doc).2
        ++ (saveToStorageT s.brandSelect s.modeSelect s.store).2 = _
    rw [applyThemeT_snd, List.cons_append]
  · intro ev hev
    rcases List.mem_append.mp hev with h | h
    · rw [updateSwatchValuesT_snd] at h
      obtain ⟨v, _, rfl⟩ := List.mem_map.mp h
      exact ⟨v, rfl⟩
    · exact updateComponentTokenValuesT_events _ ev h
  · exact saveToStorageT_events _ _ _

end ThemeToggle
